import Mathlib

/-!
Verification of the twitch-bot chat dispatcher.

Shallow embedding of the Go sources:
- `src/unnamed/part_000` (command loading, IRC dispatch loop),
- `src/riot.go` (Riot API client: player cache, champion map, rank,
  active-game bans, stream stats),
- `src/twitch.go` (Twitch helpers, used only through their result values here).

Strings are modelled as `List Char` (Go's rune view).  Network, file-system
and JSON-decoding effects are passed in explicitly as oracle values: each
embedded function takes the outcome of its upstream calls as an argument and
returns its result together with the updated piece of state it touches.
Runtime panics (out-of-range slice indexing) are modelled by a dedicated
constructor/`Option` so that aborting executions are distinguishable from
completed ones.
-/

namespace TwitchBot

/-- Go strings viewed as rune sequences. -/
abbrev GoStr := List Char

/-- Whitespace as decided by Go's `unicode.IsSpace` (the Latin-1 cases plus
the `White_Space` code points above U+00FF), used by `strings.TrimSpace`. -/
def goIsSpace (c : Char) : Bool :=
  c = '\t' || c = '\n' || c = '\x0b' || c = '\x0c' || c = '\r' || c = ' ' ||
  c = '\x85' || c = ' ' || c = ' ' ||
  (0x2000 ≤ c.toNat && c.toNat ≤ 0x200a) ||
  c = ' ' || c = ' ' || c = ' ' || c = ' ' || c = '　'

/-- One rune of Go's `strings.ToLower` (simple case mapping).  ASCII letters
are mapped exactly; code points above 127 are kept unchanged.  Go's full
table maps a few non-ASCII points into ASCII (e.g. U+212A KELVIN SIGN to
`k`), which would then survive the subsequent non-ASCII filter where this
model drops them; that divergence affects none of the verified statements:
the idempotence analysis relies only on ASCII characters being fixed points
of lowercasing (true of both mappings), the C4 counterexample's runes are
fixed by both, and every witness input is pure ASCII, where the mappings
agree. -/
def goToLower (c : Char) : Char :=
  if h : 65 ≤ c.toNat ∧ c.toNat ≤ 90 then
    Char.ofNatAux (c.toNat + 32) (Or.inl (by omega))
  else c

/-- Go `strings.TrimSpace`. -/
def trimSpace (s : GoStr) : GoStr :=
  ((s.dropWhile goIsSpace).reverse.dropWhile goIsSpace).reverse

/-- The rune filter applied in `part_000` lines 37-42 and 121-126: runes
above 127 are removed entirely (`strings.Map` returning -1). -/
def dropNonAscii (s : GoStr) : GoStr :=
  s.filter (fun c => c.toNat ≤ 127)

/-- Message/key normalization, `part_000` lines 36-42 (loadCommands) and
120-126 (dispatch loop): trim space, lowercase, then drop non-ASCII runes. -/
def normalizeCommand (s : GoStr) : GoStr :=
  dropNonAscii ((trimSpace s).map goToLower)

/-- First occurrence of `sep` in `s`: returns the part before it and the part
after it, scanning left to right (Go `strings.Index` driving `strings.Split`).
Returns `none` when `sep` does not occur; never finds an occurrence in the
empty string (callers never pass an empty `sep`). -/
def splitFirst (sep : GoStr) : GoStr → Option (GoStr × GoStr)
  | [] => none
  | c :: rest =>
    if sep.isPrefixOf (c :: rest) then some ([], (c :: rest).drop sep.length)
    else (splitFirst sep rest).map (fun pr => (c :: pr.1, pr.2))

/-- Go `strings.Contains`. -/
def containsSub (sub : GoStr) : GoStr → Bool
  | [] => sub.isEmpty
  | c :: rest => sub.isPrefixOf (c :: rest) || containsSub sub rest

/-- Fuel-driven worker for `goSplit`; the fuel passed by `goSplit` always
suffices because each found occurrence consumes at least one rune. -/
def goSplitAux (sep : GoStr) : Nat → GoStr → List GoStr
  | 0, s => [s]
  | fuel + 1, s =>
    match splitFirst sep s with
    | none => [s]
    | some (pre, post) => pre :: goSplitAux sep fuel post

/-- Go `strings.Split` around non-overlapping occurrences of a non-empty
separator (the only way this codebase calls it). -/
def goSplit (sep : GoStr) (s : GoStr) : List GoStr :=
  if sep = [] then [s] else goSplitAux sep (s.length + 1) s

/-- Go `strings.SplitN(s, sep, 2)`. -/
def goSplitN2 (sep : GoStr) (s : GoStr) : List GoStr :=
  match splitFirst sep s with
  | none => [s]
  | some (pre, post) => [pre, post]

/-- Go `strings.HasPrefix`. -/
def hasPrefixStr (p s : GoStr) : Bool := p.isPrefixOf s

/-- Go `strings.TrimPrefix`. -/
def trimPfx (p s : GoStr) : GoStr :=
  if p.isPrefixOf s then s.drop p.length else s

/-- Go `strings.Join`. -/
def joinSep (sep : GoStr) : List GoStr → GoStr
  | [] => []
  | [x] => x
  | x :: y :: rest => x ++ sep ++ joinSep sep (y :: rest)

/-- Go `fmt` `%d` / `%s` rendering of an integer. -/
def intToStr (i : Int) : GoStr := (toString i).data

/-- Association-list write with Go map semantics: the new binding shadows any
previous binding of the same key (reads take the first match). -/
def alSet {κ α : Type} (k : κ) (v : α) (m : List (κ × α)) : List (κ × α) :=
  (k, v) :: m

/-- Association-list read, first match wins (together with `alSet` this gives
Go map read-after-write semantics). -/
def alGet {κ α : Type} [DecidableEq κ] (k : κ) (m : List (κ × α)) : Option α :=
  (m.find? (fun p => decide (p.1 = k))).map (fun p => p.2)

/-- A command entry of `commands.json` (`part_000` lines 15-20). -/
structure CommandConfig where
  type : GoStr
  response : GoStr
  endpoint : GoStr
  cooldown : Int
deriving DecidableEq

/-- The command registry: normalized token to configuration. -/
abbrev Registry := GoStr → Option CommandConfig

/-- Per-token last-use timestamps (`lastUsed` in `main`), in seconds. -/
abbrev CooldownTable := GoStr → Option Int

/-- Key-normalization step of `loadCommands` (`part_000` lines 33-44).  The
input list is the decoded `commands.json` map in the order Go's `range`
happens to visit it — the Go specification leaves that order undefined, so it
need not agree with the order keys appear in the configuration file. -/
def loadCommands (entries : List (GoStr × CommandConfig)) : Registry :=
  entries.foldl
    (fun m p => Function.update m (normalizeCommand p.1) (some p.2))
    (fun _ => none)

/-- One entry of the Riot league response (`riot.go` lines 46-53). -/
structure LeagueEntry where
  queueType : GoStr
  tier : GoStr
  rank : GoStr
  leaguePoints : Int
  wins : Int
  losses : Int
deriving DecidableEq

/-- A persisted player-cache record (`riot.go` lines 36-42). -/
structure PlayerCacheEntry where
  gameName : GoStr
  tagLine : GoStr
  puuid : GoStr
  summonerId : GoStr
  cachedAt : Int
deriving DecidableEq

/-- The decoded `players.json` contents. -/
abbrev PlayerCache := List (GoStr × PlayerCacheEntry)

/-- One banned champion of the spectator response (`riot.go` lines 55-61). -/
structure SpectBan where
  championId : Int
  pickTurn : Int
  teamId : Int
deriving DecidableEq

/-- The decoded spectator response. -/
structure SpectatorResponse where
  bannedChampions : List SpectBan
deriving DecidableEq

/-- The decoded Account-V1 response (`riot.go` lines 151-155). -/
structure AccountResp where
  puuid : GoStr
  gameName : GoStr
  tagLine : GoStr
deriving DecidableEq

/-- The decoded Summoner-V4 response (`riot.go` lines 63-67). -/
structure SummonerResp where
  id : GoStr
  puuid : GoStr
  name : GoStr
deriving DecidableEq

/-- Outcome of one HTTP exchange as seen by `makeRequest`: either a transport
error from the client, or a status code with a body. -/
inductive HttpOutcome where
  | netFail (msg : GoStr)
  | response (status : Int) (body : GoStr)
deriving DecidableEq

/-- `makeRequest` (`riot.go` lines 96-126): token guard, host-type switch,
non-200 statuses turned into an error string carrying the status and body. -/
def makeRequest (riotToken : GoStr) (hostType : GoStr) (out : HttpOutcome) :
    Except GoStr GoStr :=
  if riotToken = [] then Except.error ("RIOT_TOKEN not set".data)
  else if hostType = ("platform".data) ∨ hostType = ("regional".data) then
    match out with
    | HttpOutcome.netFail e => Except.error e
    | HttpOutcome.response status body =>
      if status ≠ 200 then
        Except.error (("request failed ".data) ++ intToStr status ++ (": ".data) ++ body)
      else Except.ok body
  else Except.error (("invalid hostType: ".data) ++ hostType)

/-- Go `strconv.Atoi` on a rune string: optional sign then one or more
decimal digits, nothing else (the 64-bit range check is omitted; the ids fed
to it here are far below it). -/
def atoi (s : GoStr) : Option Int :=
  let digits : GoStr → Option Nat := fun ds =>
    if ds = [] then none
    else if ds.all (fun c => 48 ≤ c.toNat ∧ c.toNat ≤ 57) then
      some (ds.foldl (fun acc c => acc * 10 + (c.toNat - 48)) 0)
    else none
  match s with
  | '+' :: rest => (digits rest).map (fun n => (n : Int))
  | '-' :: rest => (digits rest).map (fun n => -(n : Int))
  | _ => (digits s).map (fun n => (n : Int))

/-- The champion lookup table with integer keys. -/
abbrev ChampMap := List (Int × GoStr)

/-- `LoadChampionMap` (`riot.go` lines 186-218) as a pure function of the
decoded `champions.json` file: `none` models a read or parse failure (the
function returns an error and leaves the map nil); otherwise string keys are
converted with `Atoi`, skipping entries that fail to convert. -/
def loadChampionMapResult (file : Option (List (GoStr × GoStr))) : Option ChampMap :=
  file.map (fun es =>
    es.foldl
      (fun m p =>
        match atoi p.1 with
        | none => m
        | some id => alSet id p.2 m)
      [])

/-- The `Unknown(<id>)` placeholder of `GetChampionName`. -/
def unknownChampion (id : Int) : GoStr :=
  ("Unknown(".data) ++ intToStr id ++ (")".data)

/-- Outcome of a champion-name lookup: the returned string, or the goroutine
blocking forever on a lock it already holds. -/
inductive NameOutcome where
  | returns (name : GoStr)
  | deadlock
deriving DecidableEq

/-- `GetChampionName` (`riot.go` lines 220-235): the function takes
`championsMu` (line 221) and, when the champion map is still nil — the
startup `LoadChampionMap` having failed on an absent or malformed file —
calls `LoadChampionMap` (line 225), whose own `championsMu.Lock()`
(line 187) re-acquires the non-reentrant mutex this goroutine already
holds: the call blocks forever and never reaches the placeholder return of
lines 226-228.  With a loaded map it returns the mapped name, or
`Unknown(<id>)` for an absent id (lines 231-234). -/
def GetChampionName (st : Option ChampMap) (id : Int) : NameOutcome :=
  match st with
  | none => NameOutcome.deadlock
  | some m =>
    match alGet id m with
    | some name => NameOutcome.returns name
    | none => NameOutcome.returns (unknownChampion id)

/-- `GetCurrentRank` (`riot.go` lines 238-247): propagate a request error;
ignore the decode error, so a malformed 200 body yields the empty list with
no error (`decodeRanks` models `json.Unmarshal`, `none` being failure). -/
def GetCurrentRank (req : Except GoStr GoStr)
    (decodeRanks : GoStr → Option (List LeagueEntry)) :
    Except GoStr (List LeagueEntry) :=
  match req with
  | Except.error e => Except.error e
  | Except.ok data => Except.ok ((decodeRanks data).getD [])

/-- Outcome of a bans lookup: the returned value, or a hang inherited from a
deadlocking champion-name lookup. -/
inductive BansOutcome where
  | returns (r : Except GoStr (List GoStr))
  | deadlock

/-- The champion-name loop of `GetActiveMatchBans` (`riot.go` lines
261-264): each ban's champion id goes through `GetChampionName`, and a
deadlocking lookup (nil champion map) hangs the whole call — no lookup at
all is made for an empty ban list. -/
def mapChampionNames (st : Option ChampMap) : List SpectBan → Option (List GoStr)
  | [] => some []
  | b :: rest =>
    match GetChampionName st b.championId with
    | NameOutcome.deadlock => none
    | NameOutcome.returns nm => (mapChampionNames st rest).map (fun l => nm :: l)

/-- `GetActiveMatchBans` (`riot.go` lines 250-266): a request error whose
message contains "404" becomes an empty ban list with no error; other errors
propagate; on success the (decode-failure-tolerant) response's bans are
mapped through `GetChampionName`, hanging if any of those lookups
deadlocks. -/
def GetActiveMatchBans (req : Except GoStr GoStr)
    (decodeSpect : GoStr → Option SpectatorResponse)
    (st : Option ChampMap) : BansOutcome :=
  match req with
  | Except.error e =>
    if containsSub ("404".data) e then BansOutcome.returns (Except.ok [])
    else BansOutcome.returns (Except.error e)
  | Except.ok data =>
    let resp := (decodeSpect data).getD { bannedChampions := [] }
    match mapChampionNames st resp.bannedChampions with
    | none => BansOutcome.deadlock
    | some bans => BansOutcome.returns (Except.ok bans)

/-- Upstream outcomes consumed by one `GetOrCachePlayer` call. -/
structure PlayerEnv where
  accountReq : Except GoStr GoStr
  decodeAccount : GoStr → Option AccountResp
  summonerReq : GoStr → Except GoStr GoStr
  decodeSummoner : GoStr → Option SummonerResp
  writeOk : Bool
  now : Int

/-- Result of one `GetOrCachePlayer` call: the returned value, the state of
the persisted cache file afterwards, and how many upstream HTTP requests the
call issued. -/
structure PlayerResult where
  res : Except GoStr GoStr
  fs : Option PlayerCache
  netCalls : Nat

/-- `GetOrCachePlayer` (`riot.go` lines 129-182).  The cache is re-read from
the persisted file on every call (`fs = none` models a missing/unreadable or
unparsable file, which the code ignores, leaving the cache empty).  On a miss
it chains the Account-V1 and Summoner-V4 lookups; on success it inserts the
entry and rewrites the file, ignoring a write failure (`writeOk = false`
leaves the file unchanged). -/
def GetOrCachePlayer (env : PlayerEnv) (fs : Option PlayerCache)
    (gameName tagLine : GoStr) : PlayerResult :=
  let cache : PlayerCache := fs.getD []
  let key := gameName ++ ("#".data) ++ tagLine
  match alGet key cache with
  | some p => { res := Except.ok p.puuid, fs := fs, netCalls := 0 }
  | none =>
    match env.accountReq with
    | Except.error e => { res := Except.error e, fs := fs, netCalls := 1 }
    | Except.ok data =>
      match env.decodeAccount data with
      | none => { res := Except.error ("unmarshal".data), fs := fs, netCalls := 1 }
      | some acc =>
        match env.summonerReq acc.puuid with
        | Except.error e => { res := Except.error e, fs := fs, netCalls := 2 }
        | Except.ok sdata =>
          match env.decodeSummoner sdata with
          | none => { res := Except.error ("unmarshal".data), fs := fs, netCalls := 2 }
          | some s =>
            let entry : PlayerCacheEntry :=
              { gameName := acc.gameName, tagLine := acc.tagLine,
                puuid := acc.puuid, summonerId := s.id, cachedAt := env.now }
            { res := Except.ok acc.puuid,
              fs := if env.writeOk then some (alSet key entry cache) else fs,
              netCalls := 2 }

/-- One participant of a decoded match document: `win = none` models a
missing or non-boolean "win" field. -/
structure Participant where
  puuid : GoStr
  win : Option Bool
deriving DecidableEq

/-- The inner participant loop of `GetStreamStats` (`riot.go` lines 306-319):
find the first well-formed participant with the subject's puuid (`none` list
elements model entries that fail the map cast and are skipped); return
whether that participant's "win" field is boolean true. -/
def scanParticipants (pid : GoStr) : List (Option Participant) → Option Bool
  | [] => none
  | none :: rest => scanParticipants pid rest
  | some p :: rest =>
    if p.puuid = pid then some (p.win = some true)
    else scanParticipants pid rest

/-- Per-match tally of `GetStreamStats` (`riot.go` lines 290-320): a failed
match fetch is skipped; `ok none` models a document whose "info" or
"participants" cast fails (also skipped); otherwise the scanned result
increments wins or losses. -/
def tallyMatch (pid : GoStr)
    (m : Except GoStr (Option (List (Option Participant))))
    (acc : Int × Int) : Int × Int :=
  match m with
  | Except.error _ => acc
  | Except.ok none => acc
  | Except.ok (some ps) =>
    match scanParticipants pid ps with
    | none => acc
    | some true => (acc.1 + 1, acc.2)
    | some false => (acc.1, acc.2 + 1)

/-- Win/loss aggregation over the fetched match ids. -/
def aggregateWinsLosses (pid : GoStr) (ids : List GoStr)
    (matchData : GoStr → Except GoStr (Option (List (Option Participant)))) :
    Int × Int :=
  ids.foldl (fun acc id => tallyMatch pid (matchData id) acc) (0, 0)

/-- A stream-stats cache entry (`riot.go` lines 69-76); `winrate` models the
`float64` with an exact rational. -/
structure StreamStatsEntry where
  wins : Int
  losses : Int
  winrate : ℚ
  lpStart : List (GoStr × Int)
  lpEnd : List (GoStr × Int)
  cachedAt : Int
deriving DecidableEq

/-- Upstream outcomes consumed by one `GetStreamStats` call. -/
structure StreamStatsEnv where
  idsReq : Except GoStr GoStr
  decodeIds : GoStr → Option (List GoStr)
  matchData : GoStr → Except GoStr (Option (List (Option Participant)))
  rankReq : Except GoStr GoStr
  decodeRanks : GoStr → Option (List LeagueEntry)
  now : Int

/-- Result of one `GetStreamStats` call: return value plus updated cache. -/
structure StreamStatsResult where
  res : Except GoStr StreamStatsEntry
  cache : List (GoStr × StreamStatsEntry)

/-- The stream-stats cache key `<puuid>_<startTime>`. -/
def statsKey (pid : GoStr) (startTime : Int) : GoStr :=
  pid ++ ("_".data) ++ intToStr startTime

/-- `GetStreamStats` (`riot.go` lines 269-350): cache hit returns as-is; on a
miss, a failed id-list request propagates, a failed id-list decode is ignored
(empty list), matches are tallied, the winrate is 0 when no match counted and
`wins/total*100` otherwise, and current rank populates the approximate LP
start/end maps (`ranks` is empty when the rank call fails, its error being
discarded). -/
def GetStreamStats (env : StreamStatsEnv)
    (cache : List (GoStr × StreamStatsEntry)) (pid : GoStr) (startTime : Int) :
    StreamStatsResult :=
  let key := statsKey pid startTime
  match alGet key cache with
  | some v => { res := Except.ok v, cache := cache }
  | none =>
    match env.idsReq with
    | Except.error e => { res := Except.error e, cache := cache }
    | Except.ok data =>
      let ids := (env.decodeIds data).getD []
      let wl := aggregateWinsLosses pid ids env.matchData
      let total := wl.1 + wl.2
      let winrate : ℚ := if 0 < total then (wl.1 : ℚ) / (total : ℚ) * 100 else 0
      let ranks :=
        match GetCurrentRank env.rankReq env.decodeRanks with
        | Except.error _ => []
        | Except.ok rs => rs
      let entry : StreamStatsEntry :=
        { wins := wl.1, losses := wl.2, winrate := winrate,
          lpStart := ranks.map (fun r => (r.queueType, r.leaguePoints - (wl.1 - wl.2))),
          lpEnd := ranks.map (fun r => (r.queueType, r.leaguePoints)),
          cachedAt := env.now }
      { res := Except.ok entry, cache := alSet key entry cache }

/-- The outbound chat frame written by `say` (`part_000` lines 56-58). -/
def sayFrame (channel msg : GoStr) : GoStr :=
  ("PRIVMSG #".data) ++ channel ++ (" :".data) ++ msg ++ ("\r\n".data)

/-- Two-decimal rendering standing in for `fmt` `%.2f` (half-up instead of
half-even; no verified claim inspects this text). -/
def fmtRat2 (q : ℚ) : GoStr :=
  let cents : Int := ⌊q * 100 + 1 / 2⌋
  intToStr (cents / 100) ++ (".".data) ++
    (if cents % 100 < 10 then ("0".data) else []) ++ intToStr (cents % 100)

/-- Results of the remote operations available to one dispatch-loop
iteration, at the moment that iteration runs.  `rankReq`/`decodeRanks` sit at
the `makeRequest`/`json.Unmarshal` level so the loop invokes the embedded
`GetCurrentRank` itself; the other fields carry the called functions' results
directly. -/
structure RemoteOracle where
  streamInfo : Except GoStr (GoStr × GoStr)
  rankReq : Except GoStr GoStr
  decodeRanks : GoStr → Option (List LeagueEntry)
  streamStart : Except GoStr Int
  streamStats : Except GoStr StreamStatsEntry
  bans : Except GoStr (List GoStr)

/-- The frames written by the `switch cfg.Type` dispatch (`part_000` lines
140-180).  `none` models a runtime panic: on the rank path, `rank` keeps its
nil zero value when `GetCurrentRank` fails (the error is only logged, line
157) and is also empty on a successful-but-empty response, and either way
`rank[0]` (line 159) is an out-of-range index.  On the stream-stats path a
failed start-time fetch emits the apology (line 163) and then falls through
to `GetStreamStats` anyway — there is no `else` — so a second frame follows.
An unrecognized type or endpoint matches no case and writes nothing. -/
def dispatchFrames (channel user : GoStr) (cfg : CommandConfig)
    (o : RemoteOracle) : Option (List GoStr) :=
  if cfg.type = ("static".data) then
    some [sayFrame channel (("@".data) ++ user ++ (" ".data) ++ cfg.response)]
  else if cfg.type = ("api".data) then
    if cfg.endpoint = ("twitch_stream_info".data) then
      match o.streamInfo with
      | Except.error _ =>
        some [sayFrame channel (("@".data) ++ user ++ (" Error fetching stream info.".data))]
      | Except.ok (title, game) =>
        if title = ("Offline".data) then
          some [sayFrame channel (("@".data) ++ user ++ (" Stream is offline.".data))]
        else
          some [sayFrame channel
            (("@".data) ++ user ++ (" Title: ".data) ++ title ++ (" | Game: ".data) ++ game)]
    else if cfg.endpoint = ("riot_rank_info".data) then
      let rank : List LeagueEntry :=
        match GetCurrentRank o.rankReq o.decodeRanks with
        | Except.error _ => []
        | Except.ok rs => rs
      match rank with
      | [] => none
      | r :: _ =>
        some [sayFrame channel
          (("@".data) ++ user ++ (" Current Rank: ".data) ++ r.tier ++ (" ".data) ++
            r.rank ++ (" ".data) ++ intToStr r.leaguePoints)]
    else if cfg.endpoint = ("stream_stats_info".data) then
      let startFrames : List GoStr :=
        match o.streamStart with
        | Except.error _ =>
          [sayFrame channel (("@".data) ++ user ++ (" Error fetching stream info.".data))]
        | Except.ok _ => []
      let statsFrames : List GoStr :=
        match o.streamStats with
        | Except.error _ =>
          [sayFrame channel (("@".data) ++ user ++ (" Error Fetching stream stats.".data))]
        | Except.ok st =>
          [sayFrame channel
            (("@".data) ++ user ++ (" Wins: ".data) ++ intToStr st.wins ++
              (" | Loss: ".data) ++ intToStr st.losses ++ (" | Winrate: ".data) ++
              fmtRat2 st.winrate ++ ("% ".data))]
      some (startFrames ++ statsFrames)
    else if cfg.endpoint = ("current_bans_info".data) then
      match o.bans with
      | Except.error _ =>
        some [sayFrame channel (("@".data) ++ user ++ (" Not in an Active Match".data))]
      | Except.ok bs =>
        some [sayFrame channel
          (("@".data) ++ user ++ (" Banned Champions: ".data) ++ joinSep (", ".data) bs)]
    else some []
  else some []

/-- Outcome of extracting sender and message from a PRIVMSG-marked line. -/
inductive ParseOutcome where
  | noMsg
  | panicked
  | parsed (user msg : GoStr)
deriving DecidableEq

/-- The PRIVMSG extraction (`part_000` lines 113-119): split around the
marker (`noMsg` keeps the dead `len(parts) < 2` guard), take the sender from
the first part, then index element 1 of `SplitN(parts[1], ":", 2)` — which
panics (`panicked`) when the remainder holds no colon, because `SplitN` then
returns a single-element slice. -/
def parsePrivmsg (line : GoStr) : ParseOutcome :=
  match goSplit ("PRIVMSG".data) line with
  | p0 :: p1 :: _ =>
    let rawUser := (goSplit ("!".data) p0).headD []
    let user := trimPfx (":".data) rawUser
    match goSplitN2 (":".data) p1 with
    | _ :: m :: _ => ParseOutcome.parsed user m
    | _ => ParseOutcome.panicked
  | _ => ParseOutcome.noMsg

/-- Result of processing one inbound line: the frames written and the
cooldown table afterwards, or a runtime panic aborting the process. -/
inductive StepResult where
  | ok (frames : List GoStr) (lastUsed : CooldownTable)
  | panicked

/-- Frames written during the step (none when it panicked). -/
def StepResult.frames : StepResult → List GoStr
  | StepResult.ok fs _ => fs
  | StepResult.panicked => []

/-- The cooldown table after the step; a panicked step never reaches the
recording statement, so the caller-supplied fallback is returned. -/
def StepResult.table (deflt : CooldownTable) : StepResult → CooldownTable
  | StepResult.ok _ lu => lu
  | StepResult.panicked => deflt

/-- Whether the step aborted the process with a runtime panic. -/
def StepResult.isPanicked : StepResult → Bool
  | StepResult.ok _ _ => false
  | StepResult.panicked => true

/-- The cooldown test of `part_000` lines 134-138: a token is on cooldown
when it has a recorded use less than `cfg.cooldown` seconds ago. -/
def onCooldown (lu : CooldownTable) (tok : GoStr) (cfg : CommandConfig)
    (now : Int) : Bool :=
  match lu tok with
  | some t => decide (now - t < cfg.cooldown)
  | none => false

/-- One iteration of the dispatch loop (`part_000` lines 100-183): trim the
line; answer PING; otherwise, for a line containing PRIVMSG, parse it, look
the normalized message up in the registry (a miss is ignored), skip silently
while on cooldown, dispatch, and record the time — the recording (line 182)
runs whether the handler succeeded or failed, but is never reached when the
dispatch panics.  Times are modelled in whole seconds; the iteration is
treated as instantaneous at `now`. -/
def processLine (channel : GoStr) (reg : Registry) (lastUsed : CooldownTable)
    (now : Int) (o : RemoteOracle) (rawLine : GoStr) : StepResult :=
  let line := trimSpace rawLine
  if hasPrefixStr ("PING".data) line then
    StepResult.ok [("PONG :tmi.twitch.tv\r\n".data)] lastUsed
  else if containsSub ("PRIVMSG".data) line then
    match parsePrivmsg line with
    | ParseOutcome.noMsg => StepResult.ok [] lastUsed
    | ParseOutcome.panicked => StepResult.panicked
    | ParseOutcome.parsed user msg =>
      let command := normalizeCommand msg
      match reg command with
      | none => StepResult.ok [] lastUsed
      | some cfg =>
        if onCooldown lastUsed command cfg now then StepResult.ok [] lastUsed
        else
          match dispatchFrames channel user cfg o with
          | none => StepResult.panicked
          | some frames =>
            StepResult.ok frames (Function.update lastUsed command (some now))
  else StepResult.ok [] lastUsed

/-- Fixture: a remote oracle in which every upstream call fails. -/
def oracleAllErr : RemoteOracle :=
  { streamInfo := Except.error ("e".data),
    rankReq := Except.error ("connection refused".data),
    decodeRanks := fun _ => none,
    streamStart := Except.error ("e".data),
    streamStats := Except.error ("e".data),
    bans := Except.error ("e".data) }

/-- Fixture: a static command entry. -/
def cfgOne : CommandConfig :=
  { type := ("static".data), response := ("one".data), endpoint := [], cooldown := 0 }

/-- Fixture: a second, different static command entry. -/
def cfgTwo : CommandConfig :=
  { type := ("static".data), response := ("two".data), endpoint := [], cooldown := 0 }

/-- Fixture: the registered rank command. -/
def rankCfgW : CommandConfig :=
  { type := ("api".data), response := [], endpoint := ("riot_rank_info".data), cooldown := 30 }

/-- Fixture: a registry holding only the rank command. -/
def rankRegW : Registry := loadCommands [(("!rank".data), rankCfgW)]

/-- Fixture: the registered stream-stats command. -/
def statsCfgW : CommandConfig :=
  { type := ("api".data), response := [], endpoint := ("stream_stats_info".data), cooldown := 30 }

/-- Fixture: a registry holding only the stream-stats command. -/
def statsRegW : Registry := loadCommands [(("!stats".data), statsCfgW)]

/-- Fixture: the `!hello` static command of the spec's cooldown scenario. -/
def helloCfgW : CommandConfig :=
  { type := ("static".data), response := ("hi".data), endpoint := [], cooldown := 2 }

/-- Fixture: a registry holding only `!hello`. -/
def helloRegW : Registry := loadCommands [(("!hello".data), helloCfgW)]

/-- Fixture: player-resolution upstreams that succeed, with the cache-file
write failing. -/
def playerEnvNoWrite : PlayerEnv :=
  { accountReq := Except.ok ("acct".data),
    decodeAccount := fun _ =>
      some { puuid := ("puuid1".data), gameName := ("Bob".data), tagLine := ("NA1".data) },
    summonerReq := fun _ => Except.ok ("sum".data),
    decodeSummoner := fun _ =>
      some { id := ("sid".data), puuid := ("puuid1".data), name := ("bob".data) },
    writeOk := false, now := 0 }

/-- Fixture: same upstreams with the cache-file write succeeding. -/
def playerEnvWrite : PlayerEnv := { playerEnvNoWrite with writeOk := true }

/-- Fixture: stream-stats upstreams yielding one win and one loss. -/
def statsEnvW : StreamStatsEnv :=
  { idsReq := Except.ok ("ids".data),
    decodeIds := fun _ => some [("m1".data), ("m2".data)],
    matchData := fun id =>
      if id = ("m1".data) then
        Except.ok (some [some { puuid := ("p1".data), win := some true }])
      else Except.ok (some [some { puuid := ("p1".data), win := some false }]),
    rankReq := Except.error ("e".data), decodeRanks := fun _ => none, now := 0 }

/-- Fixture: stream-stats upstreams yielding an empty match list. -/
def statsEnvW0 : StreamStatsEnv := { statsEnvW with decodeIds := fun _ => some [] }

/-- Fixture: the registered bans command. -/
def bansCfgW : CommandConfig :=
  { type := ("api".data), response := [], endpoint := ("current_bans_info".data), cooldown := 0 }

/-- Fixture: a remote oracle whose bans call returned the empty list. -/
def bansOracleW : RemoteOracle := { oracleAllErr with bans := Except.ok [] }

/-- The wins/losses fields of a stream-stats result, when it succeeded. -/
def winsLossesOf : Except GoStr StreamStatsEntry → Option (Int × Int)
  | Except.ok e => some (e.wins, e.losses)
  | Except.error _ => none

/-- The winrate field of a stream-stats result, when it succeeded. -/
def winrateOf : Except GoStr StreamStatsEntry → Option ℚ
  | Except.ok e => some e.winrate
  | Except.error _ => none

theorem goToLower_idem (c : Char) : goToLower (goToLower c) = goToLower c := by
  unfold goToLower
  split
  · rename_i h
    have h2 : (Char.ofNatAux (c.toNat + 32) (Or.inl (by omega))).toNat = c.toNat + 32 := rfl
    split
    · rename_i h3
      rw [h2] at h3
      omega
    · rfl
  · rfl

theorem mem_normalizeCommand (s : GoStr) (c : Char) (hc : c ∈ normalizeCommand s) :
    c.toNat ≤ 127 ∧ goToLower c = c := by
  unfold normalizeCommand dropNonAscii at hc
  have h1 := List.of_mem_filter hc
  have h2 := List.mem_of_mem_filter hc
  obtain ⟨a, _, rfl⟩ := List.mem_map.mp h2
  exact ⟨by simpa using h1, goToLower_idem a⟩

theorem trimSpace_subset (s : GoStr) : trimSpace s ⊆ s := by
  intro c hc
  unfold trimSpace at hc
  rw [List.mem_reverse] at hc
  have hc2 := (List.dropWhile_sublist goIsSpace).subset hc
  rw [List.mem_reverse] at hc2
  exact (List.dropWhile_sublist goIsSpace).subset hc2

theorem map_id_of_mem {α : Type} (l : List α) (f : α → α) (h : ∀ x ∈ l, f x = x) :
    l.map f = l := by
  induction l with
  | nil => rfl
  | cons a t ih => simp_all

/-- C4 counterexample: normalization is not idempotent on `"é x"` — the first
pass trims nothing (the edges are non-space), removes the non-ASCII `é`, and
leaves a leading ASCII space that only a second pass trims. -/
theorem normalize_not_idempotent :
    normalizeCommand (normalizeCommand ("é x".data)) ≠ normalizeCommand ("é x".data) := by
  decide

/-- C4 (amended): a second normalization pass exactly trims the whitespace
the first pass can leave at the edges after removing non-ASCII runes, i.e.
`normalize ∘ normalize = trimSpace ∘ normalize`; idempotence holds precisely
when the normalized text has no leading/trailing whitespace (in particular
for all-ASCII inputs, where the first trim already removed it). -/
theorem normalize_normalize (s : GoStr) :
    normalizeCommand (normalizeCommand s) = trimSpace (normalizeCommand s) := by
  have hmem : ∀ c ∈ normalizeCommand s, c.toNat ≤ 127 ∧ goToLower c = c :=
    fun c hc => mem_normalizeCommand s c hc
  have hsub := trimSpace_subset (normalizeCommand s)
  have hmap : (trimSpace (normalizeCommand s)).map goToLower
      = trimSpace (normalizeCommand s) :=
    map_id_of_mem _ _ (fun c hc => (hmem c (hsub hc)).2)
  show dropNonAscii ((trimSpace (normalizeCommand s)).map goToLower)
      = trimSpace (normalizeCommand s)
  rw [hmap]
  unfold dropNonAscii
  exact List.filter_eq_self.mpr
    (fun c hc => by simpa using (hmem c (hsub hc)).1)

/-- C5 counterexample: the registry is built by ranging over the decoded Go
map, whose iteration order is unspecified; for the configuration listing
`"A"` (entry `cfgOne`) before `"a"` (entry `cfgTwo`), the iteration order
that visits `"a"` first — a permutation of the configuration entries, hence
an admissible run — makes the earlier-defined `cfgOne` win the normalized
token `"a"`, contradicting "the one defined later in load order wins". -/
theorem loadCommands_iteration_order_cex :
    loadCommands [(("a".data), cfgTwo), (("A".data), cfgOne)] ("a".data) = some cfgOne ∧
    List.Perm [(("a".data), cfgTwo), (("A".data), cfgOne)]
      [(("A".data), cfgOne), (("a".data), cfgTwo)] ∧
    cfgOne ≠ cfgTwo := by
  refine ⟨by decide, List.Perm.swap (("A".data), cfgOne) (("a".data), cfgTwo) [], by decide⟩

/-- C5 (amended): after normalization the registry holds exactly one entry
per token — it is a map — and for any insertion sequence the entry inserted
later wins a collision: appending `(k, v)` makes `v` the entry of
`normalize k` and changes no other token.  Which raw key that is relative to
the configuration file is up to Go's unspecified map-iteration order. -/
theorem loadCommands_last_wins (es : List (GoStr × CommandConfig)) (k : GoStr)
    (v : CommandConfig) :
    loadCommands (es ++ [(k, v)]) (normalizeCommand k) = some v ∧
    ∀ t, t ≠ normalizeCommand k → loadCommands (es ++ [(k, v)]) t = loadCommands es t := by
  unfold loadCommands
  rw [List.foldl_append]
  constructor
  · exact Function.update_same _ _ _
  · intro t ht
    exact Function.update_noteq ht _ _

theorem loadCommands_last_wins_witness :
    loadCommands [(("A".data), cfgOne), (("a".data), cfgTwo)] ("a".data) = some cfgTwo ∧
    loadCommands [(("A".data), cfgOne), (("a".data), cfgTwo)] ("b".data) =
      loadCommands [(("A".data), cfgOne)] ("b".data) := by
  have h := loadCommands_last_wins [(("A".data), cfgOne)] ("a".data) cfgTwo
  have e : normalizeCommand ("a".data) = ("a".data) := by decide
  rw [e] at h
  exact ⟨h.1, h.2 ("b".data) (by decide)⟩

/-- C8 (code_bug evaluation): when the startup load failed (an absent or
malformed `champions.json` leaves the map nil — `loadChampionMapResult`
yields `none`), a champion-name lookup re-locks `championsMu` inside
`LoadChampionMap` while `GetChampionName` already holds it, so the goroutine
self-deadlocks and never returns the claimed `Unknown(<id>)` placeholder.
With a loaded table the claimed behavior does hold: present ids map to their
names and absent ids to the placeholder (witnessed here on the spec's
Aatrox table). -/
theorem GetChampionName_nil_map_deadlocks :
    loadChampionMapResult none = none ∧
    GetChampionName none 999 = NameOutcome.deadlock ∧
    GetChampionName (some [(1, ("Aatrox".data))]) 1 =
      NameOutcome.returns ("Aatrox".data) ∧
    GetChampionName (some [(1, ("Aatrox".data))]) 999 =
      NameOutcome.returns (unknownChampion 999) :=
  ⟨rfl, rfl, rfl, rfl⟩

theorem alGet_alSet_self {κ α : Type} [DecidableEq κ] (k : κ) (v : α)
    (m : List (κ × α)) : alGet k (alSet k v m) = some v := by
  simp [alGet, alSet, List.find?]

/-- C6 counterexample: with the upstreams succeeding but the cache-file write
failing, the first resolution issues its two chained upstream calls and the
second resolution for the same name+tag pair issues them again — the code
holds no in-memory cache; it re-reads the (unchanged) file, misses, and goes
back to the network, where the claim asserts zero network activity. -/
theorem GetOrCachePlayer_write_failure_cex :
    (GetOrCachePlayer playerEnvNoWrite none ("Bob".data) ("NA1".data)).res =
      Except.ok ("puuid1".data) ∧
    (GetOrCachePlayer playerEnvNoWrite
        (GetOrCachePlayer playerEnvNoWrite none ("Bob".data) ("NA1".data)).fs
        ("Bob".data) ("NA1".data)).netCalls = 2 :=
  ⟨rfl, rfl⟩

/-- C6 (amended): identity resolution is cached through the persisted file,
which is re-read on every call; two calls for the same name+tag pair issue
the chained upstream lookups at most once provided the first call's
best-effort cache write succeeded — the second call then misses the network
entirely and returns the same stable id.  (When the write fails, the second
call repeats the lookups, as the counterexample shows.) -/
theorem GetOrCachePlayer_cached_second (env : PlayerEnv) (fs : Option PlayerCache)
    (gn tl p : GoStr) (hw : env.writeOk = true)
    (h1 : (GetOrCachePlayer env fs gn tl).res = Except.ok p) :
    (GetOrCachePlayer env (GetOrCachePlayer env fs gn tl).fs gn tl).netCalls = 0 ∧
    (GetOrCachePlayer env (GetOrCachePlayer env fs gn tl).fs gn tl).res =
      Except.ok p := by
  unfold GetOrCachePlayer at h1 ⊢
  cases hget : alGet (gn ++ ("#".data) ++ tl) (fs.getD []) with
  | some pe =>
    simp only [hget] at h1 ⊢
    exact ⟨trivial, h1⟩
  | none =>
    cases hacc : env.accountReq with
    | error e =>
      simp only [hget, hacc] at h1
      exact absurd h1 (by simp)
    | ok data =>
      cases hdec : env.decodeAccount data with
      | none =>
        simp only [hget, hacc, hdec] at h1
        exact absurd h1 (by simp)
      | some acc =>
        cases hsum : env.summonerReq acc.puuid with
        | error e =>
          simp only [hget, hacc, hdec, hsum] at h1
          exact absurd h1 (by simp)
        | ok sdata =>
          cases hds : env.decodeSummoner sdata with
          | none =>
            simp only [hget, hacc, hdec, hsum, hds] at h1
            exact absurd h1 (by simp)
          | some s =>
            simp only [hget, hacc, hdec, hsum, hds, hw, if_true] at h1 ⊢
            simp only [Option.getD_some, alGet_alSet_self]
            simp only [Except.ok.injEq] at h1
            exact ⟨trivial, by rw [h1]⟩

theorem GetOrCachePlayer_cached_second_witness :
    (GetOrCachePlayer playerEnvWrite
        (GetOrCachePlayer playerEnvWrite none ("Bob".data) ("NA1".data)).fs
        ("Bob".data) ("NA1".data)).netCalls = 0 ∧
    (GetOrCachePlayer playerEnvWrite
        (GetOrCachePlayer playerEnvWrite none ("Bob".data) ("NA1".data)).fs
        ("Bob".data) ("NA1".data)).res = Except.ok ("puuid1".data) :=
  GetOrCachePlayer_cached_second playerEnvWrite none ("Bob".data) ("NA1".data)
    ("puuid1".data) rfl rfl

/-- C9: on a cache miss with a successful match-id fetch, the stream-stats
entry carries exactly the aggregated win/loss counts, and its winrate is
`wins/(wins+losses)*100` when at least one match was counted and exactly `0`
when both counts are zero — the guarded computation never divides 0 by 0. -/
theorem GetStreamStats_winrate (env : StreamStatsEnv)
    (cache : List (GoStr × StreamStatsEntry)) (pid : GoStr) (startTime : Int)
    (d : GoStr)
    (hmiss : alGet (statsKey pid startTime) cache = none)
    (hids : env.idsReq = Except.ok d) :
    winsLossesOf (GetStreamStats env cache pid startTime).res =
      some (aggregateWinsLosses pid ((env.decodeIds d).getD []) env.matchData) ∧
    (0 < (aggregateWinsLosses pid ((env.decodeIds d).getD []) env.matchData).1 +
        (aggregateWinsLosses pid ((env.decodeIds d).getD []) env.matchData).2 →
      winrateOf (GetStreamStats env cache pid startTime).res =
        some (((aggregateWinsLosses pid ((env.decodeIds d).getD []) env.matchData).1 : ℚ) /
          ((((aggregateWinsLosses pid ((env.decodeIds d).getD []) env.matchData).1 : ℚ)) +
            (((aggregateWinsLosses pid ((env.decodeIds d).getD []) env.matchData).2 : ℚ))) *
          100)) ∧
    ((aggregateWinsLosses pid ((env.decodeIds d).getD []) env.matchData).1 = 0 ∧
      (aggregateWinsLosses pid ((env.decodeIds d).getD []) env.matchData).2 = 0 →
      winrateOf (GetStreamStats env cache pid startTime).res = some 0) := by
  unfold GetStreamStats
  simp only [hmiss, hids]
  refine ⟨by simp [winsLossesOf], ?_, ?_⟩
  · intro hpos
    simp only [winrateOf, if_pos hpos, Option.some.injEq]
    push_cast
    ring
  · intro hzero
    have : ¬(0 < (aggregateWinsLosses pid ((env.decodeIds d).getD []) env.matchData).1 +
        (aggregateWinsLosses pid ((env.decodeIds d).getD []) env.matchData).2) := by
      omega
    simp only [winrateOf, if_neg this]

theorem GetStreamStats_winrate_witness :
    winsLossesOf (GetStreamStats statsEnvW [] ("p1".data) 7).res =
      some ((1 : Int), (1 : Int)) ∧
    winrateOf (GetStreamStats statsEnvW [] ("p1".data) 7).res =
      some (((1 : Int) : ℚ) / (((1 : Int) : ℚ) + ((1 : Int) : ℚ)) * 100) ∧
    winrateOf (GetStreamStats statsEnvW0 [] ("p1".data) 7).res = some 0 := by
  have h := GetStreamStats_winrate statsEnvW [] ("p1".data) 7 ("ids".data) rfl rfl
  have h0 := GetStreamStats_winrate statsEnvW0 [] ("p1".data) 7 ("ids".data) rfl rfl
  have e : aggregateWinsLosses ("p1".data) ((statsEnvW.decodeIds ("ids".data)).getD [])
      statsEnvW.matchData = ((1 : Int), (1 : Int)) := by decide
  have e0 : aggregateWinsLosses ("p1".data) ((statsEnvW0.decodeIds ("ids".data)).getD [])
      statsEnvW0.matchData = ((0 : Int), (0 : Int)) := by decide
  rw [e] at h
  rw [e0] at h0
  exact ⟨h.1, h.2.1 (by decide), h0.2.2 ⟨rfl, rfl⟩⟩

theorem isPrefixOf_append_right (a b c : GoStr) (h : a.isPrefixOf b = true) :
    a.isPrefixOf (b ++ c) = true := by
  rw [List.isPrefixOf_iff_prefix] at *
  exact h.trans (List.prefix_append b c)

theorem containsSub_of_drop (sub : GoStr) (s : GoStr) (i : Nat)
    (h : sub.isPrefixOf (s.drop i) = true) : containsSub sub s = true := by
  induction s generalizing i with
  | nil =>
    rw [List.drop_nil] at h
    unfold containsSub
    cases sub with
    | nil => rfl
    | cons a t => simp [List.isPrefixOf] at h
  | cons c rest ih =>
    unfold containsSub
    rw [Bool.or_eq_true]
    cases i with
    | zero => exact Or.inl h
    | succ j => exact Or.inr (ih j h)

/-- C10: an active-game lookup answered with status 404 makes
`GetActiveMatchBans` return the empty ban list with no error (the error
message `makeRequest` builds for a 404 always contains "404"); the dispatch
of a bans command whose handler returned the empty list writes exactly the
`@<sender> Banned Champions: ` frame with an empty list; and the
`Not in an Active Match` branch — taken only when the handler errors — can
never result from a 404 response. -/
theorem GetActiveMatchBans_404 (token body : GoStr)
    (dec : GoStr → Option SpectatorResponse) (st : Option ChampMap)
    (channel user : GoStr)
    (cfg : CommandConfig) (o : RemoteOracle)
    (htok : token ≠ [])
    (hty : cfg.type = ("api".data)) (hep : cfg.endpoint = ("current_bans_info".data))
    (hb : o.bans = Except.ok []) :
    GetActiveMatchBans
      (makeRequest token ("platform".data) (HttpOutcome.response 404 body))
      dec st = BansOutcome.returns (Except.ok []) ∧
    dispatchFrames channel user cfg o =
      some [sayFrame channel (("@".data) ++ user ++ (" Banned Champions: ".data))] ∧
    (∀ out e, GetActiveMatchBans (makeRequest token ("platform".data) out)
        dec st = BansOutcome.returns (Except.error e) →
      ∀ b, out ≠ HttpOutcome.response 404 b) := by
  have hmsg : ∀ b : GoStr,
      makeRequest token ("platform".data) (HttpOutcome.response 404 b) =
        Except.error (("request failed ".data) ++ intToStr 404 ++ (": ".data) ++ b) := by
    intro b
    unfold makeRequest
    rw [if_neg htok]
    rfl
  have hok : ∀ b : GoStr,
      GetActiveMatchBans
        (makeRequest token ("platform".data) (HttpOutcome.response 404 b))
        dec st = BansOutcome.returns (Except.ok []) := by
    intro b
    rw [hmsg b]
    have hc : containsSub ("404".data)
        (("request failed ".data) ++ intToStr 404 ++ (": ".data) ++ b) = true := by
      apply containsSub_of_drop _ _ 15
      have hassoc : ("request failed ".data) ++ intToStr 404 ++ (": ".data) ++ b
          = ("request failed ".data) ++ (("404".data) ++ ((": ".data) ++ b)) := by
        rw [show intToStr 404 = ("404".data) from rfl]
        simp
      rw [hassoc, List.drop_append_of_le_length (by decide)]
      exact isPrefixOf_append_right ("404".data) ("404".data) ((": ".data) ++ b) rfl
    unfold GetActiveMatchBans
    show (if containsSub ("404".data)
          (("request failed ".data) ++ intToStr 404 ++ (": ".data) ++ b) = true
        then BansOutcome.returns (Except.ok [])
        else BansOutcome.returns (Except.error
          (("request failed ".data) ++ intToStr 404 ++ (": ".data) ++ b))) =
      BansOutcome.returns (Except.ok [])
    rw [hc]
    rfl
  refine ⟨hok body, ?_, ?_⟩
  · unfold dispatchFrames
    rw [hty, hep, hb]
    rw [if_neg (by decide), if_pos rfl, if_neg (by decide), if_neg (by decide),
      if_neg (by decide), if_pos rfl]
    simp [joinSep]
  · intro out e h b heq
    subst heq
    rw [hok b] at h
    exact absurd h (by simp)

theorem GetActiveMatchBans_404_witness :
    GetActiveMatchBans
      (makeRequest ("tk".data) ("platform".data) (HttpOutcome.response 404 ("nope".data)))
      (fun _ => none) none = BansOutcome.returns (Except.ok []) ∧
    dispatchFrames ("chan".data) ("bob".data) bansCfgW bansOracleW =
      some [sayFrame ("chan".data)
        (("@".data) ++ ("bob".data) ++ (" Banned Champions: ".data))] ∧
    HttpOutcome.netFail ("x".data) ≠ HttpOutcome.response 404 ("nope".data) := by
  have h := GetActiveMatchBans_404 ("tk".data) ("nope".data) (fun _ => none) none
    ("chan".data) ("bob".data) bansCfgW bansOracleW (by decide) rfl rfl rfl
  exact ⟨h.1, h.2.1, h.2.2 (HttpOutcome.netFail ("x".data)) ("x".data) rfl ("nope".data)⟩

/-- C1 (code_bug evaluation): when the upstream rank request fails,
`GetCurrentRank` returns the error; the dispatch loop only logs it, leaves
`rank` as the nil slice, and then evaluates `rank[0]` — an out-of-range
index that panics and aborts the process, where the claim promises local
recovery with at most an apology frame. -/
theorem rank_error_dispatch_panics :
    GetCurrentRank oracleAllErr.rankReq oracleAllErr.decodeRanks =
      Except.error ("connection refused".data) ∧
    (processLine ("chan".data) rankRegW (fun _ => none) 5 oracleAllErr
      (":ann!ann@x PRIVMSG #chan :!rank".data)).isPanicked = true :=
  ⟨rfl, rfl⟩

/-- C2 (code_bug evaluation): the frame `foo PRIVMSG bar` contains the
user-message marker but no colon after it, so `SplitN(parts[1], ":", 2)`
yields a single-element slice and the indexing `[1]` panics, aborting the
process, where the claim promises the frame is silently ignored. -/
theorem malformed_privmsg_panics :
    containsSub ("PRIVMSG".data) (trimSpace ("foo PRIVMSG bar".data)) = true ∧
    (processLine ("chan".data) (fun _ => none) (fun _ => none) 0 oracleAllErr
      ("foo PRIVMSG bar".data)).isPanicked = true :=
  ⟨rfl, rfl⟩

/-- C7 (code_bug evaluation): dispatching the stream-stats command while the
stream-start fetch fails writes two frames — the apology for the failed
start-time fetch, then (the start-time error not being rechecked) the result
of the stats call — where the claim promises exactly one frame per
dispatch. -/
theorem stream_stats_double_frame :
    (processLine ("chan".data) statsRegW (fun _ => none) 5 oracleAllErr
      (":ann!ann@x PRIVMSG #chan :!stats".data)).frames =
      [sayFrame ("chan".data)
        (("@".data) ++ ("ann".data) ++ (" Error fetching stream info.".data)),
       sayFrame ("chan".data)
        (("@".data) ++ ("ann".data) ++ (" Error Fetching stream stats.".data))] ∧
    (processLine ("chan".data) statsRegW (fun _ => none) 5 oracleAllErr
      (":ann!ann@x PRIVMSG #chan :!stats".data)).frames.length = 2 :=
  ⟨rfl, rfl⟩

/-- C3 counterexample: a dispatch of the registered rank command whose
handler fails panics before line 182 runs, so no response is produced and no
last-invocation timestamp is recorded — contradicting the claim that the
timestamp is recorded after every dispatch whether the handler succeeded or
failed. -/
theorem cooldown_record_skipped_on_rank_panic :
    (processLine ("ch2".data) rankRegW (fun _ => none) 9 oracleAllErr
      (":bob!bob@y PRIVMSG #ch2 :!rank".data)).isPanicked = true ∧
    (processLine ("ch2".data) rankRegW (fun _ => none) 9 oracleAllErr
      (":bob!bob@y PRIVMSG #ch2 :!rank".data)).table (fun _ => none) ("!rank".data) =
      none :=
  ⟨rfl, rfl⟩

/-- C3 (amended): cooldown is enforced per command token — not per user and
not per frame — with the last-invocation timestamp recorded after every
dispatch that completes (handler success or handler error alike; the
rank-path panic of C1 aborts before recording).  If a dispatch of a token
completes at `now`, then any second attempt at that token less than
`cooldown` seconds later — from any sender, via any raw frame whose message
normalizes to the same token — emits no frame and leaves the cooldown table
untouched, whatever its handler results would have been. -/
theorem cooldown_suppresses_within_window
    (channel : GoStr) (reg : Registry) (lastUsed : CooldownTable)
    (o o2 : RemoteOracle) (raw raw2 user msg user2 msg2 tok : GoStr)
    (cfg : CommandConfig) (now t2 : Int)
    (hping : hasPrefixStr ("PING".data) (trimSpace raw) = false)
    (hpriv : containsSub ("PRIVMSG".data) (trimSpace raw) = true)
    (hparse : parsePrivmsg (trimSpace raw) = ParseOutcome.parsed user msg)
    (htok : normalizeCommand msg = tok)
    (hping2 : hasPrefixStr ("PING".data) (trimSpace raw2) = false)
    (hpriv2 : containsSub ("PRIVMSG".data) (trimSpace raw2) = true)
    (hparse2 : parsePrivmsg (trimSpace raw2) = ParseOutcome.parsed user2 msg2)
    (htok2 : normalizeCommand msg2 = tok)
    (hreg : reg tok = some cfg)
    (hready : onCooldown lastUsed tok cfg now = false)
    (hdone : (processLine channel reg lastUsed now o raw).isPanicked = false) :
    (processLine channel reg lastUsed now o raw).table lastUsed tok = some now ∧
    (t2 - now < cfg.cooldown →
      (processLine channel reg
        ((processLine channel reg lastUsed now o raw).table lastUsed)
        t2 o2 raw2).frames = [] ∧
      ∀ tk, (processLine channel reg
          ((processLine channel reg lastUsed now o raw).table lastUsed)
          t2 o2 raw2).table lastUsed tk =
        (processLine channel reg lastUsed now o raw).table lastUsed tk) := by
  simp only [processLine, hping, hpriv, hparse, htok, hping2, hpriv2, hparse2,
    htok2, hreg, hready, Bool.false_eq_true, if_false, if_true] at hdone ⊢
  cases hd : dispatchFrames channel user cfg o with
  | none =>
    simp only [hd, StepResult.isPanicked] at hdone
    exact absurd hdone (by decide)
  | some fs =>
    simp only [hd, StepResult.table, StepResult.frames] at hdone ⊢
    have hupd : Function.update lastUsed tok (some now) tok = some now :=
      Function.update_same tok (some now) lastUsed
    refine ⟨hupd, ?_⟩
    intro hlt
    have hcool2 : onCooldown (Function.update lastUsed tok (some now)) tok cfg t2 = true := by
      unfold onCooldown
      rw [hupd]
      exact decide_eq_true hlt
    simp only [hcool2, if_true, StepResult.frames, StepResult.table]
    exact ⟨trivial, fun _ => trivial⟩

theorem cooldown_suppresses_within_window_witness :
    (processLine ("chan".data) helloRegW (fun _ => none) 10 oracleAllErr
      (":bob!bob@x PRIVMSG #chan :!hello".data)).table (fun _ => none)
      ("!hello".data) = some 10 ∧
    (processLine ("chan".data) helloRegW
      ((processLine ("chan".data) helloRegW (fun _ => none) 10 oracleAllErr
        (":bob!bob@x PRIVMSG #chan :!hello".data)).table (fun _ => none))
      11 oracleAllErr
      (":alice!alice@y PRIVMSG #chan :!HELLO".data)).frames = [] := by
  have h := cooldown_suppresses_within_window ("chan".data) helloRegW (fun _ => none)
    oracleAllErr oracleAllErr (":bob!bob@x PRIVMSG #chan :!hello".data)
    (":alice!alice@y PRIVMSG #chan :!HELLO".data)
    ("bob".data) ("!hello".data) ("alice".data) ("!HELLO".data) ("!hello".data)
    helloCfgW 10 11
    (by decide) (by decide) (by decide) (by decide)
    (by decide) (by decide) (by decide) (by decide) (by decide) rfl rfl
  exact ⟨h.1, (h.2 (by decide)).1⟩

end TwitchBot
